import Mathlib

/-!
Verification of the Batch-to-Profile converter (`src/app.py`).

The transformation `transform_batch_to_profile` takes a pandas DataFrame read
with `dtype=str` (every cell is either a string or NaN) and produces the
fixed-schema profile table.  We embed the DataFrame as a list of columns
names together with a list of rows, where each cell is `Option String`
(`none` models a NaN / missing value).  Python string primitives
(`str.strip`, `str.lower`, `str.upper`, `str.startswith`) are modelled
explicitly on character lists (ASCII case mapping), so everything reduces
in the kernel.
-/

namespace BatchProfile

/-! ## Python string primitives -/

/-- ASCII whitespace recognised by Python `str.strip`. -/
def isSpaceChar (c : Char) : Bool :=
  c = ' ' || c = '\t' || c = '\n' || c = '\r' || c = '\x0b' || c = '\x0c'

/-- The character list of a string stripped on both ends, as `str.strip`. -/
def pyStripList (cs : List Char) : List Char :=
  ((cs.dropWhile isSpaceChar).reverse.dropWhile isSpaceChar).reverse

/-- Python `s.strip()` (ASCII whitespace model). -/
def pyStrip (s : String) : String := String.mk (pyStripList s.toList)

/-- Lower-case one ASCII character, as Python `str.lower` on ASCII input. -/
def lowerChar (c : Char) : Char :=
  if 'A' ≤ c && c ≤ 'Z' then Char.ofNat (c.toNat + 32) else c

/-- Upper-case one ASCII character, as Python `str.upper` on ASCII input. -/
def upperChar (c : Char) : Char :=
  if 'a' ≤ c && c ≤ 'z' then Char.ofNat (c.toNat - 32) else c

/-- Python `s.lower()` (ASCII model). -/
def pyLower (s : String) : String := String.mk (s.toList.map lowerChar)

/-- Python `s.upper()` (ASCII model). -/
def pyUpper (s : String) : String := String.mk (s.toList.map upperChar)

/-- Does the second list start with the first one? -/
def startsWithAux : List Char → List Char → Bool
  | [], _ => true
  | _ :: _, [] => false
  | p :: ps, c :: cs => p = c && startsWithAux ps cs

/-- Python `s.startswith(p)`. -/
def pyStartsWith (s p : String) : Bool := startsWithAux p.toList s.toList

/-! ## Data model: DataFrame with text cells -/

/-- One DataFrame cell: `none` models NaN (the value pandas stores for a
missing field even under `dtype=str`). -/
abbrev Cell := Option String

/-- A DataFrame read with `dtype=str`: named columns and rows of cells,
cells aligned positionally with the column names. -/
structure Table where
  cols : List String
  rows : List (List Cell)
deriving Repr, DecidableEq, Inhabited

/-- A table is well-formed (rectangular) when every row has exactly one
cell per column, as pandas guarantees. -/
def Table.WF (t : Table) : Prop :=
  ∀ r ∈ t.rows, r.length = t.cols.length

/-- Cell of a row at a column position (missing position reads as NaN). -/
def cellAt (r : List Cell) (i : Nat) : Cell := (r[i]?).join

/-! ## The transformation, translated from `transform_batch_to_profile` -/

/-- `df.columns = [c.strip().lower() for c in df.columns]` (line 12). -/
def normName (c : String) : String := pyLower (pyStrip c)

/-- Column-name normalization step of line 12. -/
def normCols (t : Table) : Table := ⟨t.cols.map normName, t.rows⟩

/-- `x.strip() if isinstance(x, str) else x` applied to one cell (line 13). -/
def trimCell : Cell → Cell
  | some s => some (pyStrip s)
  | none => none

/-- `df.applymap(lambda x: x.strip() if isinstance(x, str) else x)` (line 13). -/
def trimCells (t : Table) : Table := ⟨t.cols, t.rows.map (·.map trimCell)⟩

/-- `find_col(*names)` (lines 15-19): first alias present among the columns,
resolved to the column position used by all later lookups. -/
def find_col (cols : List String) : List String → Option Nat
  | [] => none
  | n :: ns =>
    match cols.findIdx? (· = n) with
    | some i => some i
    | none => find_col cols ns

/-- Lines 28-30: if no `group` column resolved, materialize `df["_group"] = "1"`.
When a `_group` column already exists the pandas assignment overwrites it,
otherwise a new column is appended. -/
def withGroupCol (t : Table) : Table :=
  match find_col t.cols ["group"] with
  | some _ => t
  | none =>
    match find_col t.cols ["_group"] with
    | some j => ⟨t.cols, t.rows.map (fun r => r.set j (some "1"))⟩
    | none => ⟨t.cols ++ ["_group"], t.rows.map (fun r => r ++ [some "1"])⟩

/-- The position of the resolved group column (`col_group`): the `group`
column if present, else the materialized `_group` column. -/
def groupIdx (t : Table) : Option Nat :=
  match find_col t.cols ["group"] with
  | some i => some i
  | none => find_col t.cols ["_group"]

/-- The working copy after normalization and group materialization
(lines 11-13 and 28-30). -/
def workTable (src : Table) : Table := withGroupCol (trimCells (normCols src))

/-- `df[df[col_group] == g]`: rows whose group cell equals `g`
(a NaN group cell never compares equal). -/
def rowsWithKey (rows : List (List Cell)) (g : String) (gi : Nat) :
    List (List Cell) :=
  rows.filter (fun r => cellAt r gi == some g)

/-- The non-null values of the group column, in row order (the keys that
`df.groupby(col_group)` groups by; pandas drops NaN keys). -/
def keysOf (t : Table) (gi : Nat) : List String :=
  t.rows.filterMap (fun r => cellAt r gi)

/-- First-occurrence deduplication: `df.groupby(col_group).head(1)` keeps,
in original row order, the first row of every distinct key. -/
def firstSeenAux (seen : List String) : List String → List String
  | [] => []
  | x :: xs =>
    if x ∈ seen then firstSeenAux seen xs
    else x :: firstSeenAux (x :: seen) xs

/-- `group_order` (lines 33-34): distinct group keys in first-seen order. -/
def firstSeen (keys : List String) : List String := firstSeenAux [] keys

/-- `(gdf.iloc[0][col_material] or "").upper()` (line 42).  A present string
(empty or not) yields its upper-case; a NaN cell is truthy in Python, so
`.upper()` is called on a float and raises `AttributeError`. -/
def pyOrEmptyUpper : Cell → Except String String
  | none => Except.error "AttributeError: float object has no attribute upper"
  | some s => Except.ok (pyUpper s)

/-- The scan of lines 37-45: walk `group_order`, looking for the first group
whose first row has a `material` value starting with `"FCT"`. -/
def stopScanAux (rows : List (List Cell)) (gi mi : Nat) :
    List String → Nat → Except String (Option Nat)
  | [], _ => Except.ok none
  | g :: gs, i =>
    match rowsWithKey rows g gi with
    | [] => stopScanAux rows gi mi gs (i + 1)
    | r0 :: _ =>
      match pyOrEmptyUpper (cellAt r0 mi) with
      | Except.error e => Except.error e
      | Except.ok mat =>
        if pyStartsWith mat "FCT" then Except.ok (some i)
        else stopScanAux rows gi mi gs (i + 1)

/-- `stop_at_idx` (lines 37-45): `None` when the `material` role is
unresolved, otherwise the result of the scan. -/
def stopIdx (t : Table) (gi : Nat) (order : List String) :
    Except String (Option Nat) :=
  match find_col t.cols ["material"] with
  | some mi => stopScanAux t.rows gi mi order 0
  | none => Except.ok none

/-- `get_val(g, idx, col, default)` (lines 53-58), with the group rows
already selected: the cell of the `idx`-th row at column `col`, where a NaN
cell reads as `""` and a missing row or unresolved column yields `default`. -/
def get_val (gdf : List (List Cell)) (idx : Nat) (col : Option Nat)
    (dflt : String) : String :=
  match gdf[idx]?, col with
  | some row, some c =>
    match cellAt row c with
    | none => ""
    | some v => v
  | _, _ => dflt

/-- Python `v or d`: the empty string is falsy. -/
def orDefault (v d : String) : String := if v = "" then d else v

/-- `get_val(g, idx, col, "0") or "0"` (lines 83 and 87). -/
def itemEntry (gdf : List (List Cell)) (idx : Nat) (col : Option Nat) :
    String := orDefault (get_val gdf idx col "0") "0"

/-- `get_val(g, idx, col_itemid, "")` (line 93). -/
def barcodeEntry (gdf : List (List Cell)) (idx : Nat) (col : Option Nat) :
    String := get_val gdf idx col ""

/-- `max_items` (line 51): largest per-group row count, 0 when no groups. -/
def maxItemsOf (kept : List String) (grows : String → List (List Cell)) :
    Nat := (kept.map (fun g => (grows g).length)).foldr max 0

/-- `f"Page_{i+1}"` labels (line 64). -/
def pageLabels (np : Nat) : List String :=
  (List.range np).map (fun i => "Page_" ++ toString (i + 1))

/-- The static-row label strings (lines 70-77). -/
def profileLabel (s : String) : String := "204_HMI_Scheme_ProjectData_" ++ s

/-- The `PerformData{k}.field` label strings (lines 82-93). -/
def performLabel (k : Nat) (field : String) : String :=
  "204_HMI_Scheme_ProjectData_PerformData\x7b" ++ toString k ++ "\x7d." ++ field

/-- One iteration of the loop of lines 80-87: the four rows emitted for
item position `j` (Python `idx = j`, display index `k = j+1`). -/
def performQuad (kept : List String) (grows : String → List (List Cell))
    (cl cq : Option Nat) (j : Nat) : List (List String) :=
  [ performLabel (j + 1) "length" :: kept.map (fun g => itemEntry (grows g) j cl)
  , performLabel (j + 1) "angle2" :: List.replicate kept.length "0"
  , performLabel (j + 1) "angle1" :: List.replicate kept.length "0"
  , performLabel (j + 1) "quantity" :: kept.map (fun g => itemEntry (grows g) j cq) ]

/-- One iteration of the loop of lines 90-93: the barcode row for item
position `j`. -/
def barcodeRow (kept : List String) (grows : String → List (List Cell))
    (ci : Option Nat) (j : Nat) : List String :=
  performLabel (j + 1) "barcode" :: kept.map (fun g => barcodeEntry (grows g) j ci)

/-- The list `rows` assembled by lines 60-93, before `pd.DataFrame(...).fillna("")`. -/
def buildRawRows (kept : List String) (grows : String → List (List Cell))
    (cm cl cq ci : Option Nat) : List (List String) :=
  let np := kept.length
  let mi := maxItemsOf kept grows
  [ ["List separator=", "Decimal symbol=."] ++ List.replicate (np - 2) ""
  , ["Scheme Scheme"] ++ List.replicate np ""
  , "LANGID_804" :: pageLabels np
  , "LANGID_404" :: pageLabels np
  , "1" :: (List.range np).map (fun i => toString (i + 1))
  , profileLabel "BarchCode" :: List.replicate np "1"
  , profileLabel "EngInfo" :: List.replicate np "1"
  , profileLabel "ProfileName" :: kept.map (fun g => get_val (grows g) 0 cm "")
  , profileLabel "ProfileCode" :: List.replicate np "0"
  , profileLabel "RawLength" :: List.replicate np "4870"
  , profileLabel "RawHeight" :: List.replicate np "0"
  , profileLabel "RawWidth" :: List.replicate np "0"
  , profileLabel "Amount" :: List.replicate np "0" ]
  ++ (List.range mi).flatMap (performQuad kept grows cl cq)
  ++ (List.range mi).map (barcodeRow kept grows ci)

/-- Width of the ragged row list: `pd.DataFrame(rows)` uses the longest row. -/
def tableWidth (rows : List (List String)) : Nat :=
  rows.foldr (fun r w => max r.length w) 0

/-- Right-pad a row with empty strings to width `w` (`fillna("")` turns the
padding NaNs of the ragged constructor into empty strings). -/
def padRow (w : Nat) (r : List String) : List String :=
  r ++ List.replicate (w - r.length) ""

/-- `pd.DataFrame(rows).fillna("")` (line 95). -/
def mkDataFrame (rows : List (List String)) : List (List String) :=
  rows.map (padRow (tableWidth rows))

/-- The local values computed by `transform_batch_to_profile` on its working
copy: group keys, `group_order`, `stop_at_idx`, `kept_groups`, `num_pages`,
`max_items` and the assembled output rows. -/
structure Pipe where
  keys : List String
  group_order : List String
  stop_at_idx : Option Nat
  kept_groups : List String
  num_pages : Nat
  max_items : Nat
  out : List (List String)
deriving Repr, DecidableEq, Inhabited

/-- `group_order` of the working table (lines 33-34). -/
def orderOf (t : Table) (gi : Nat) : List String := firstSeen (keysOf t gi)

/-- `kept_groups` (line 46): the group order truncated strictly before the
stop index, or the whole order when there is none. -/
def keptOf (t : Table) (gi : Nat) (stop : Option Nat) : List String :=
  match stop with
  | some i => (orderOf t gi).take i
  | none => orderOf t gi

/-- `group_rows` (line 49): the rows of one group, in original order. -/
def growsOf (t : Table) (gi : Nat) : String → List (List Cell) :=
  fun g => rowsWithKey t.rows g gi

/-- Assemble all locals of the transformation from the working table, the
group-column position and the stop index. -/
def mkPipe (t : Table) (gi : Nat) (stop : Option Nat) : Pipe :=
  { keys := keysOf t gi
    group_order := orderOf t gi
    stop_at_idx := stop
    kept_groups := keptOf t gi stop
    num_pages := (keptOf t gi stop).length
    max_items := maxItemsOf (keptOf t gi stop) (growsOf t gi)
    out := mkDataFrame (buildRawRows (keptOf t gi stop) (growsOf t gi)
      (find_col t.cols ["material"]) (find_col t.cols ["length"])
      (find_col t.cols ["qty"]) (find_col t.cols ["itemid", "item_id", "item id"])) }

/-- The transformation on an already-normalized working table. -/
def pipeCore (t : Table) : Except String Pipe :=
  match groupIdx t with
  | none => Except.error "no group column"
  | some gi =>
    match stopIdx t gi (orderOf t gi) with
    | Except.error e => Except.error e
    | Except.ok stop => Except.ok (mkPipe t gi stop)

/-- All locals of `transform_batch_to_profile` on input `src`. -/
def runPipe (src : Table) : Except String Pipe := pipeCore (workTable src)

/-- `transform_batch_to_profile` (lines 10-95): the output table, or the
Python exception text when the transformation raises. -/
def transform_batch_to_profile (src : Table) :
    Except String (List (List String)) := (runPipe src).map Pipe.out

/-- `converted.to_csv(buffer, index=False, header=False)` (line 110):
comma-separated, minimally quoted, one line per row. -/
def csvQuote (s : String) : String :=
  if s.toList.any (fun c => c = ',' || c = '"' || c = '\n')
  then "\"" ++ String.mk (s.toList.flatMap
      (fun c => if c = '"' then ['"', '"'] else [c])) ++ "\""
  else s

/-- Serialize the output table as `to_csv` does. -/
def serializeCsv (rows : List (List String)) : String :=
  String.intercalate "\n" (rows.map (fun r =>
    String.intercalate "," (r.map csvQuote))) ++ "\n"

/-! ## Spec-side definitions (formalizing the wording of the spec, to be
compared with the translated code) -/

/-- The spec's description of a PerformData value: the cell of the row at
position `idx` of the group at the resolved column, when that row exists and
the cell is present and non-empty; the default on every fallback condition
(group has fewer rows, unresolved column, missing/NaN value, empty value). -/
def specItemVal (gdf : List (List Cell)) (idx : Nat) (col : Option Nat)
    (dflt : String) : String :=
  match col, gdf[idx]? with
  | some c, some row =>
    match cellAt row c with
    | some v => if v = "" then dflt else v
    | none => dflt
  | _, _ => dflt

/-- The spec's description of the page ordering: the distinct group keys in
order of first appearance, built by a left fold that appends unseen keys. -/
def firstAppearanceOrder (keys : List String) : List String :=
  keys.foldl (fun acc k => if k ∈ acc then acc else acc ++ [k]) []

/-- The spec's description of the material of a group: the `material` value
of the group's first row, upper-cased, the empty string when missing. -/
def firstRowMaterialU (t : Table) (gi mi : Nat) (g : String) : String :=
  match rowsWithKey t.rows g gi with
  | [] => ""
  | r :: _ => pyUpper ((cellAt r mi).getD "")

/-- The spec's stop criterion: a group whose first row's `material`,
upper-cased, begins with `"FCT"`. -/
def isStopGroup (t : Table) (gi mi : Nat) (g : String) : Bool :=
  pyStartsWith (firstRowMaterialU t gi mi g) "FCT"

/-! ## Heap model for the frame claim

The source mutates DataFrame objects in place (`df.columns = ...`,
`df["_group"] = "1"`), so the claim that the caller's table is untouched is
about object identity.  We model a heap of table objects addressed by
allocation order. -/

/-- A heap of DataFrame objects; references are allocation indices. -/
structure Heap where
  tabs : List Table
deriving Repr, DecidableEq, Inhabited

/-- Dereference a table object. -/
def Heap.read (h : Heap) (r : Nat) : Option Table := h.tabs[r]?

/-- Overwrite a table object in place. -/
def Heap.write (h : Heap) (r : Nat) (t : Table) : Heap := ⟨h.tabs.set r t⟩

/-- Allocate a fresh table object, returning its reference. -/
def Heap.alloc (h : Heap) (t : Table) : Heap × Nat :=
  (⟨h.tabs ++ [t]⟩, h.tabs.length)

/-- `transform_batch_to_profile` with the caller's DataFrame held in a heap
of table objects, mirroring which object each source line operates on:
line 11 allocates the working copy `df`; line 12 assigns `df.columns` in
place on it; line 13 rebinds `df` to the freshly allocated result of
`applymap`; lines 28-30 assign the `_group` column in place on that object.
The caller's object at `r` is never written. -/
def transformOnHeap (h : Heap) (r : Nat) :
    Heap × Except String (List (List String)) :=
  match h.read r with
  | none => (h, Except.error "table not found")
  | some src =>
    let a1 := h.alloc src
    let h1 := a1.1
    let rA := a1.2
    let h2 := h1.write rA (normCols ((h1.read rA).getD src))
    let a2 := h2.alloc (trimCells ((h2.read rA).getD src))
    let h3 := a2.1
    let rB := a2.2
    let h4 := h3.write rB (withGroupCol ((h3.read rB).getD src))
    (h4, (pipeCore ((h4.read rB).getD src)).map Pipe.out)

/-! ## Concrete inputs used by the counterexamples and witnesses -/

/-- Extract the computed locals of a successful run. -/
def pipeOf (t : Table) : Pipe :=
  match runPipe t with
  | Except.ok p => p
  | Except.error _ => default

/-- A table whose single group's first row has a missing (NaN) `material`. -/
def tMissingMat : Table := ⟨["group", "material"], [[some "1", none]]⟩

/-- A table with a group column and no data rows: zero groups are kept. -/
def tNoRows : Table := ⟨["group"], []⟩

/-- No group-like column and a first-row `material` starting with `FCT`. -/
def tFctOnly : Table := ⟨["material"], [[some "FCT-1"]]⟩

/-- A group key that reappears after a different group. -/
def tReappear : Table := ⟨["group"], [[some "1"], [some "2"], [some "1"]]⟩

/-- Witness input for the row-width invariant: two groups. -/
def tTwoGroups : Table :=
  ⟨["group", "length"], [[some "1", some "10"], [some "2", some "20"]]⟩

/-- Witness input for the synthetic-group claim: no group-like column and
no `material` column. -/
def tNoGroup : Table := ⟨["itemid"], [[some "X1"]]⟩

/-- Witness input for the reappearing-group claim. -/
def tReappear2 : Table := ⟨["group"], [[some "a"], [some "b"], [some "a"]]⟩

/-- Witness input for the truncation claim: three groups, the third with a
first-row `material` starting (case-insensitively) with `FCT`. -/
def tThreeGroups : Table :=
  ⟨["group", "material"],
    [[some "A", some "x"], [some "B", some "y"], [some "C", some "fctsm-26x"]]⟩

/-- Witness input for first-appearance ordering: keys `"10"` then `"2"`. -/
def tTenTwo : Table := ⟨["group"], [[some "10"], [some "2"], [some "10"]]⟩

/-- Witness input for determinism. -/
def tDet : Table := ⟨["group", "qty"], [[some "1", some "3"]]⟩

/-- Witness input for the frame claim. -/
def tFrame : Table := ⟨["group", "length"], [[some "1", some "250"]]⟩

/-- Witness input for column-name insensitivity, and its renamed variant. -/
def tNamed : Table := ⟨["group", "length"], [[some " 1 ", some "10"]]⟩

/-- The same table with column labels differing by case and whitespace. -/
def tNamedVariant : Table := ⟨["  GROUP ", "Length"], [[some " 1 ", some "10"]]⟩

/-! ## Helper lemmas: first-seen deduplication -/

theorem mem_firstSeenAux {x : String} :
    ∀ {l seen : List String}, x ∈ firstSeenAux seen l ↔ x ∈ l ∧ x ∉ seen := by
  intro l
  induction l with
  | nil => intro seen; simp [firstSeenAux]
  | cons y ys ih =>
    intro seen
    by_cases hy : y ∈ seen
    · rw [firstSeenAux, if_pos hy, ih]
      constructor
      · rintro ⟨h1, h2⟩; exact ⟨List.mem_cons_of_mem _ h1, h2⟩
      · rintro ⟨h1, h2⟩
        rcases List.mem_cons.1 h1 with rfl | h1
        · exact absurd hy h2
        · exact ⟨h1, h2⟩
    · rw [firstSeenAux, if_neg hy]
      constructor
      · intro h
        rcases List.mem_cons.1 h with rfl | h
        · exact ⟨List.mem_cons_self _ _, hy⟩
        · obtain ⟨h1, h2⟩ := ih.1 h
          refine ⟨List.mem_cons_of_mem _ h1, fun hs => h2 (List.mem_cons_of_mem _ hs)⟩
      · rintro ⟨h1, h2⟩
        rcases List.mem_cons.1 h1 with rfl | h1
        · exact List.mem_cons_self _ _
        · by_cases hxy : x = y
          · exact hxy ▸ List.mem_cons_self _ _
          · exact List.mem_cons_of_mem _ (ih.2 ⟨h1, by
              intro hs
              rcases List.mem_cons.1 hs with h | h
              · exact hxy h
              · exact h2 h⟩)

theorem nodup_firstSeenAux :
    ∀ {l seen : List String}, (firstSeenAux seen l).Nodup := by
  intro l
  induction l with
  | nil => intro seen; simp [firstSeenAux]
  | cons y ys ih =>
    intro seen
    by_cases hy : y ∈ seen
    · rw [firstSeenAux, if_pos hy]; exact ih
    · rw [firstSeenAux, if_neg hy, List.nodup_cons]
      refine ⟨fun hmem => ?_, ih⟩
      exact (mem_firstSeenAux.1 hmem).2 (List.mem_cons_self _ _)

theorem firstSeenAux_congr :
    ∀ {l s1 s2 : List String}, (∀ a, a ∈ s1 ↔ a ∈ s2) →
      firstSeenAux s1 l = firstSeenAux s2 l := by
  intro l
  induction l with
  | nil => intro s1 s2 _; rfl
  | cons y ys ih =>
    intro s1 s2 h
    by_cases hy : y ∈ s1
    · rw [firstSeenAux, if_pos hy, firstSeenAux, if_pos ((h y).1 hy)]
      exact ih h
    · rw [firstSeenAux, if_neg hy, firstSeenAux, if_neg (fun hc => hy ((h y).2 hc))]
      refine congrArg _ (ih fun a => ?_)
      simp only [List.mem_cons]
      exact or_congr Iff.rfl (h a)

theorem foldl_firstSeenAux :
    ∀ (l acc : List String),
      l.foldl (fun acc k => if k ∈ acc then acc else acc ++ [k]) acc
        = acc ++ firstSeenAux acc l := by
  intro l
  induction l with
  | nil => intro acc; simp [firstSeenAux]
  | cons y ys ih =>
    intro acc
    by_cases hy : y ∈ acc
    · rw [List.foldl_cons, if_pos hy, firstSeenAux, if_pos hy]
      exact ih acc
    · rw [List.foldl_cons, if_neg hy, firstSeenAux, if_neg hy, ih (acc ++ [y])]
      rw [@firstSeenAux_congr ys (acc ++ [y]) (y :: acc) (fun a => by simp [or_comm])]
      simp

theorem firstSeenAux_all_mem :
    ∀ {l seen : List String}, (∀ x ∈ l, x ∈ seen) → firstSeenAux seen l = [] := by
  intro l
  induction l with
  | nil => intro seen _; rfl
  | cons y ys ih =>
    intro seen h
    rw [firstSeenAux, if_pos (h y (List.mem_cons_self _ _))]
    exact ih fun x hx => h x (List.mem_cons_of_mem _ hx)

theorem firstSeen_all_one {l : List String} (hne : l ≠ [])
    (hall : ∀ x ∈ l, x = "1") : firstSeen l = ["1"] := by
  cases l with
  | nil => exact absurd rfl hne
  | cons y ys =>
    have hy := hall y (List.mem_cons_self _ _)
    subst hy
    rw [firstSeen, firstSeenAux, if_neg (List.not_mem_nil _)]
    refine congrArg _ (firstSeenAux_all_mem fun x hx => ?_)
    rw [hall x (List.mem_cons_of_mem _ hx)]
    exact List.mem_cons_self _ _

/-! ## Helper lemmas: column resolution -/

theorem find_col_singleton (cols : List String) (n : String) :
    find_col cols [n] = cols.findIdx? (fun c => decide (c = n)) := by
  rw [find_col]
  cases h : cols.findIdx? (fun c => decide (c = n)) <;> simp [find_col]

theorem find_col_singleton_none {cols : List String} {n : String}
    (h : n ∉ cols) : find_col cols [n] = none := by
  rw [find_col_singleton, List.findIdx?_eq_none_iff]
  intro x hx
  simp only [decide_eq_false_iff_not]
  exact fun he => h (he ▸ hx)

theorem findIdx?_self_append {l : List String} {n : String} (h : n ∉ l) :
    ∀ i, List.findIdx? (fun c => decide (c = n)) (l ++ [n]) i
      = some (i + l.length) := by
  induction l with
  | nil => intro i; simp [List.findIdx?_cons]
  | cons x xs ih =>
    intro i
    have hx : x ≠ n := fun he => h (he ▸ List.mem_cons_self _ _)
    rw [List.cons_append, List.findIdx?_cons]
    rw [if_neg (by simp [hx])]
    rw [ih (fun hm => h (List.mem_cons_of_mem _ hm)) (i + 1)]
    congr 1
    simp [List.length_cons]
    omega

theorem find_col_mem_bound {cols : List String} {n : String} {i : Nat}
    (h : find_col cols [n] = some i) : i < cols.length := by
  rw [find_col_singleton] at h
  exact (List.findIdx?_eq_some_iff_findIdx_eq.1 h).1

/-! ## Helper lemmas: destructing a successful run -/

theorem runPipe_ok_elim {src : Table} {p : Pipe}
    (h : runPipe src = Except.ok p) :
    ∃ gi stop, groupIdx (workTable src) = some gi ∧
      stopIdx (workTable src) gi (orderOf (workTable src) gi)
        = Except.ok stop ∧
      p = mkPipe (workTable src) gi stop := by
  rw [runPipe, pipeCore] at h
  split at h
  · exact absurd h (by simp)
  · rename_i gi hg
    split at h
    · exact absurd h (by simp)
    · rename_i stop hs
      exact ⟨gi, stop, hg, hs, by injection h.symm⟩

/-! ## Helper lemmas: output table width -/

theorem tableWidth_nil : tableWidth [] = 0 := rfl

theorem tableWidth_cons (x : List String) (l : List (List String)) :
    tableWidth (x :: l) = max x.length (tableWidth l) := rfl

theorem tableWidth_append (xs ys : List (List String)) :
    tableWidth (xs ++ ys) = max (tableWidth xs) (tableWidth ys) := by
  induction xs with
  | nil => simp [tableWidth_nil]
  | cons x xs ih =>
    rw [List.cons_append, tableWidth_cons, ih, tableWidth_cons, Nat.max_assoc]

theorem length_le_tableWidth {r : List String} {rows : List (List String)}
    (h : r ∈ rows) : r.length ≤ tableWidth rows := by
  induction rows with
  | nil => exact absurd h (List.not_mem_nil _)
  | cons x xs ih =>
    rw [tableWidth_cons]
    rcases List.mem_cons.1 h with rfl | h
    · exact Nat.le_max_left _ _
    · exact Nat.le_trans (ih h) (Nat.le_max_right _ _)

theorem tableWidth_le {rows : List (List String)} {w : Nat}
    (h : ∀ r ∈ rows, r.length ≤ w) : tableWidth rows ≤ w := by
  induction rows with
  | nil => exact Nat.zero_le _
  | cons x xs ih =>
    rw [tableWidth_cons]
    exact Nat.max_le.2 ⟨h x (List.mem_cons_self _ _),
      ih fun r hr => h r (List.mem_cons_of_mem _ hr)⟩

theorem mkDataFrame_row_length {rows : List (List String)} {r : List String}
    (h : r ∈ mkDataFrame rows) : r.length = tableWidth rows := by
  obtain ⟨r0, hr0, rfl⟩ := List.mem_map.1 h
  have hle := length_le_tableWidth hr0
  simp only [padRow, List.length_append, List.length_replicate]
  omega

theorem performQuad_row_length {kept : List String}
    {grows : String → List (List Cell)} {cl cq : Option Nat} {j : Nat}
    {r : List String} (h : r ∈ performQuad kept grows cl cq j) :
    r.length = kept.length + 1 := by
  simp only [performQuad, List.mem_cons, List.not_mem_nil, or_false] at h
  rcases h with rfl | rfl | rfl | rfl <;>
    simp [List.length_cons, List.length_map, List.length_replicate, Nat.add_comm]

theorem barcodeRow_length (kept : List String)
    (grows : String → List (List Cell)) (ci : Option Nat) (j : Nat) :
    (barcodeRow kept grows ci j).length = kept.length + 1 := by
  simp [barcodeRow]

theorem tableWidth_buildRawRows (kept : List String)
    (grows : String → List (List Cell)) (cm cl cq ci : Option Nat) :
    tableWidth (buildRawRows kept grows cm cl cq ci)
      = 1 + max kept.length 1 := by
  have hA : tableWidth ((List.range (maxItemsOf kept grows)).flatMap
      (performQuad kept grows cl cq)) ≤ kept.length + 1 := by
    apply tableWidth_le
    intro r hr
    obtain ⟨j, -, hj⟩ := List.mem_flatMap.1 hr
    exact Nat.le_of_eq (performQuad_row_length hj)
  have hB : tableWidth ((List.range (maxItemsOf kept grows)).map
      (barcodeRow kept grows ci)) ≤ kept.length + 1 := by
    apply tableWidth_le
    intro r hr
    obtain ⟨j, -, rfl⟩ := List.mem_map.1 hr
    exact Nat.le_of_eq (barcodeRow_length kept grows ci j)
  rw [buildRawRows]
  rw [tableWidth_append, tableWidth_append]
  simp only [tableWidth_cons, tableWidth_nil, List.length_cons,
    List.length_nil, List.length_append, List.length_replicate,
    List.length_map, List.length_range, pageLabels]
  omega

/-! ## Helper lemmas: the stop scan -/

theorem isStopGroup_of_rowsWithKey_nil {t : Table} {gi mi : Nat} {g : String}
    (h : rowsWithKey t.rows g gi = []) : isStopGroup t gi mi g = false := by
  rw [isStopGroup, firstRowMaterialU, h]
  rfl

theorem isStopGroup_of_first_cell {t : Table} {gi mi : Nat} {g : String}
    {r0 : List Cell} {rest : List (List Cell)} {v : String}
    (hrw : rowsWithKey t.rows g gi = r0 :: rest) (hc : cellAt r0 mi = some v) :
    isStopGroup t gi mi g = pyStartsWith (pyUpper v) "FCT" := by
  simp [isStopGroup, firstRowMaterialU, hrw, hc]

theorem stopScan_ok_spec (t : Table) (gi mi : Nat) :
    ∀ (l : List String) (i : Nat) (s : Option Nat),
      stopScanAux t.rows gi mi l i = Except.ok s →
      match s with
      | some j => i ≤ j ∧
          l.take (j - i) = l.takeWhile (fun g => ! isStopGroup t gi mi g)
      | none => l.takeWhile (fun g => ! isStopGroup t gi mi g) = l := by
  intro l
  induction l with
  | nil =>
    intro i s h
    rw [stopScanAux] at h
    cases h
    simp [List.takeWhile_nil]
  | cons g gs ih =>
    intro i s h
    rw [stopScanAux] at h
    cases hrw : rowsWithKey t.rows g gi with
    | nil =>
      rw [hrw] at h
      dsimp only at h
      have hstop := @isStopGroup_of_rowsWithKey_nil t gi mi g hrw
      have hrest := ih (i + 1) s h
      cases s with
      | none =>
        rw [List.takeWhile_cons, hstop]
        simpa using hrest
      | some j =>
        obtain ⟨hij, htake⟩ := hrest
        refine ⟨Nat.le_trans (Nat.le_succ i) hij, ?_⟩
        have hji : j - i = (j - (i + 1)) + 1 := by omega
        rw [hji, List.take_succ_cons, List.takeWhile_cons, hstop]
        simpa using htake
    | cons r0 rest =>
      rw [hrw] at h
      dsimp only at h
      cases hc : cellAt r0 mi with
      | none =>
        rw [hc] at h
        exact absurd h (by simp [pyOrEmptyUpper])
      | some v =>
        rw [hc] at h
        simp only [pyOrEmptyUpper] at h
        have hstop := @isStopGroup_of_first_cell t gi mi g r0 rest v hrw hc
        by_cases hf : pyStartsWith (pyUpper v) "FCT" = true
        · rw [if_pos hf] at h
          cases h
          refine ⟨Nat.le_refl i, ?_⟩
          rw [Nat.sub_self, List.take_zero, List.takeWhile_cons, hstop, hf]
          simp
        · rw [if_neg hf] at h
          have hfe : isStopGroup t gi mi g = false := by
            rw [hstop]
            exact Bool.eq_false_iff.2 hf
          have hrest := ih (i + 1) s h
          cases s with
          | none =>
            rw [List.takeWhile_cons, hfe]
            simpa using hrest
          | some j =>
            obtain ⟨hij, htake⟩ := hrest
            refine ⟨Nat.le_trans (Nat.le_succ i) hij, ?_⟩
            have hji : j - i = (j - (i + 1)) + 1 := by omega
            rw [hji, List.take_succ_cons, List.takeWhile_cons, hfe]
            simpa using htake

/-! ## Helper lemmas: PerformData entry values -/

theorem itemEntry_eq_spec (gdf : List (List Cell)) (idx : Nat)
    (col : Option Nat) : itemEntry gdf idx col = specItemVal gdf idx col "0" := by
  cases hr : gdf[idx]? with
  | none => cases col <;> simp [itemEntry, get_val, specItemVal, orDefault, hr]
  | some row =>
    cases col with
    | none => simp [itemEntry, get_val, specItemVal, orDefault, hr]
    | some c =>
      cases hc : cellAt row c with
      | none => simp [itemEntry, get_val, specItemVal, orDefault, hr, hc]
      | some v =>
        by_cases hv : v = "" <;>
          simp [itemEntry, get_val, specItemVal, orDefault, hr, hc, hv]

theorem barcodeEntry_eq_spec (gdf : List (List Cell)) (idx : Nat)
    (col : Option Nat) : barcodeEntry gdf idx col = specItemVal gdf idx col "" := by
  cases hr : gdf[idx]? with
  | none => cases col <;> simp [barcodeEntry, get_val, specItemVal, hr]
  | some row =>
    cases col with
    | none => simp [barcodeEntry, get_val, specItemVal, hr]
    | some c =>
      cases hc : cellAt row c with
      | none => simp [barcodeEntry, get_val, specItemVal, hr, hc]
      | some v =>
        by_cases hv : v = "" <;>
          simp [barcodeEntry, get_val, specItemVal, hr, hc, hv]

/-! ## Helper lemmas: synthetic group column -/

theorem filterMap_const_some {α β : Type} {l : List α} {f : α → Option β}
    {b : β} (h : ∀ a ∈ l, f a = some b) :
    l.filterMap f = l.map (fun _ => b) := by
  induction l with
  | nil => rfl
  | cons x xs ih =>
    have hx := h x (List.mem_cons_self _ _)
    simp [List.filterMap_cons, hx,
      ih fun a ha => h a (List.mem_cons_of_mem _ ha)]

theorem find_col_singleton_none_iff {cols : List String} {n : String} :
    find_col cols [n] = none ↔ n ∉ cols := by
  rw [find_col_singleton, List.findIdx?_eq_none_iff]
  constructor
  · intro h hmem
    have := h n hmem
    simp at this
  · intro h x hx
    simp only [decide_eq_false_iff_not]
    exact fun he => h (he ▸ hx)

theorem trimCells_normCols_WF {src : Table} (hwf : src.WF) :
    (trimCells (normCols src)).WF := by
  intro r hr
  simp only [trimCells, normCols] at hr ⊢
  obtain ⟨r0, hr0, rfl⟩ := List.mem_map.1 hr
  simp [hwf r0 hr0]

/-- When no `group`-like column exists, the group column of the working
table is the synthetic one: every row's group cell reads `"1"`. -/
theorem keysOf_workTable_no_group {src : Table} (hwf : src.WF)
    (hg : "group" ∉ src.cols.map normName) {gi : Nat}
    (hgi : groupIdx (workTable src) = some gi) :
    keysOf (workTable src) gi = src.rows.map (fun _ => "1") := by
  have hwf1 := trimCells_normCols_WF hwf
  have hfg : find_col (trimCells (normCols src)).cols ["group"] = none := by
    rw [find_col_singleton_none_iff]
    exact hg
  rw [workTable, withGroupCol, hfg] at hgi ⊢
  dsimp only at hgi ⊢
  cases hfg2 : find_col (trimCells (normCols src)).cols ["_group"] with
  | none =>
    rw [hfg2] at hgi
    dsimp only at hgi ⊢
    have hgcol : find_col ((trimCells (normCols src)).cols ++ ["_group"])
        ["group"] = none := by
      rw [find_col_singleton_none_iff]
      intro hmem
      rcases List.mem_append.1 hmem with hmem | hmem
      · exact (find_col_singleton_none_iff.1 hfg) hmem
      · simp at hmem
    have hgcol2 : find_col ((trimCells (normCols src)).cols ++ ["_group"])
        ["_group"] = some (trimCells (normCols src)).cols.length := by
      rw [find_col_singleton]
      have h0 := findIdx?_self_append (find_col_singleton_none_iff.1 hfg2) 0
      simpa using h0
    rw [groupIdx] at hgi
    rw [hgcol] at hgi
    dsimp only at hgi
    rw [hgcol2] at hgi
    have hgieq : gi = (trimCells (normCols src)).cols.length := by
      injection hgi.symm
    subst hgieq
    rw [keysOf]
    dsimp only
    have hconst : ∀ r ∈ (trimCells (normCols src)).rows.map
        (fun r => r ++ [some "1"]),
        cellAt r (trimCells (normCols src)).cols.length = some "1" := by
      intro r hr
      obtain ⟨r0, hr0, rfl⟩ := List.mem_map.1 hr
      rw [cellAt, ← hwf1 r0 hr0, List.getElem?_concat_length]
      rfl
    rw [filterMap_const_some hconst]
    show ((src.rows.map (List.map trimCell)).map (fun r => r ++ [some "1"])).map
        (fun _ => "1") = src.rows.map (fun _ => "1")
    rw [List.map_map, List.map_map]
    rfl
  | some j =>
    rw [hfg2] at hgi
    dsimp only at hgi ⊢
    rw [groupIdx] at hgi
    rw [hfg] at hgi
    dsimp only at hgi
    rw [hfg2] at hgi
    have hgieq : gi = j := by injection hgi.symm
    subst hgieq
    have hjlt : gi < (trimCells (normCols src)).cols.length :=
      find_col_mem_bound hfg2
    rw [keysOf]
    dsimp only
    have hconst : ∀ r ∈ (trimCells (normCols src)).rows.map
        (fun r => r.set gi (some "1")), cellAt r gi = some "1" := by
      intro r hr
      obtain ⟨r0, hr0, rfl⟩ := List.mem_map.1 hr
      rw [cellAt, List.getElem?_set_self (by rw [hwf1 r0 hr0]; exact hjlt)]
      rfl
    rw [filterMap_const_some hconst]
    show ((src.rows.map (List.map trimCell)).map (fun r => r.set gi (some "1"))).map
        (fun _ => "1") = src.rows.map (fun _ => "1")
    rw [List.map_map, List.map_map]
    rfl

/-! ## Claim theorems -/

/-- Claim C1: the spec says the transform tier never fails on well-formed
tabular input and that a missing or empty `material` value of a group's
first row is treated as the empty string during the stop-index scan.  The
code disagrees: a missing (NaN) material is truthy in Python, so
`(gdf.iloc[0][col_material] or "").upper()` calls `.upper()` on a float and
`transform_batch_to_profile` raises `AttributeError`.  This theorem
evaluates the translated code at such an input. -/
theorem transform_raises_on_missing_material :
    transform_batch_to_profile tMissingMat =
      Except.error "AttributeError: float object has no attribute upper" := rfl

/-- Claim C8: the transformation is deterministic — equal input tables give
equal output tables and equal serialized bytes. -/
theorem transform_deterministic (t1 t2 : Table) (h : t1 = t2) :
    transform_batch_to_profile t1 = transform_batch_to_profile t2 ∧
    (transform_batch_to_profile t1).map serializeCsv
      = (transform_batch_to_profile t2).map serializeCsv := by
  subst h
  exact ⟨rfl, rfl⟩

/-- Witness for C8 at a concrete table. -/
theorem transform_deterministic_witness :
    transform_batch_to_profile tDet = transform_batch_to_profile tDet ∧
    (transform_batch_to_profile tDet).map serializeCsv
      = (transform_batch_to_profile tDet).map serializeCsv :=
  transform_deterministic tDet tDet rfl

/-- Claim C10: column-name matching is insensitive to letter case and
surrounding whitespace — two tables with equal rows whose column names
agree after trimming and lower-casing transform identically. -/
theorem column_name_insensitive (t tv : Table)
    (hc : tv.cols.map normName = t.cols.map normName)
    (hr : tv.rows = t.rows) :
    transform_batch_to_profile tv = transform_batch_to_profile t := by
  have hn : normCols tv = normCols t := by rw [normCols, normCols, hc, hr]
  rw [transform_batch_to_profile, transform_batch_to_profile, runPipe,
    runPipe, workTable, workTable, hn]

/-- Witness for C10: labels `"  GROUP "`, `"Length"` versus
`"group"`, `"length"`. -/
theorem column_name_insensitive_witness :
    transform_batch_to_profile tNamedVariant
      = transform_batch_to_profile tNamed :=
  column_name_insensitive tNamed tNamedVariant rfl rfl

/-- Claim C6: the page order is the order of first appearance of each
group key among the input rows (the spec's left-fold formulation), never a
lexicographic or numeric sort of the keys. -/
theorem group_order_first_appearance (src : Table) (p : Pipe)
    (h : runPipe src = Except.ok p) :
    p.group_order = firstAppearanceOrder p.keys := by
  obtain ⟨gi, stop, hg, hs, hp⟩ := runPipe_ok_elim h
  subst hp
  show orderOf (workTable src) gi = _
  rw [orderOf, firstSeen, ← List.nil_append (firstSeenAux [] (keysOf (workTable src) gi)), ← foldl_firstSeenAux]
  rfl

/-- Witness for C6: keys appearing as `"10"` then `"2"` give pages in that
input order, not in numeric order. -/
theorem group_order_first_appearance_witness :
    (pipeOf tTenTwo).group_order = ["10", "2"] :=
  (group_order_first_appearance tTenTwo (pipeOf tTenTwo) rfl).trans rfl

/-- Counterexample to C4 as stated: with group cells `"1", "2", "1"` the
claim predicts three run-groups of one row each; the code merges the
reappearing `"1"` into the earlier group, yielding two pages with the first
group holding two rows (`max_items = 2`). -/
theorem reappearing_group_merged :
    (runPipe tReappear).map (fun p => (p.group_order, p.max_items))
      = Except.ok (["1", "2"], 2) ∧
    (["1", "2"] : List String).length ≠ 3 :=
  ⟨rfl, by decide⟩

/-- Claim C4 (amended): a group consists of all rows sharing one normalized
group value — a value reappearing after other groups is merged into its
earlier group — so the group list has exactly one entry per distinct key of
the group column (no duplicates), in first-appearance order. -/
theorem group_order_nodup_complete (src : Table) (p : Pipe)
    (h : runPipe src = Except.ok p) :
    p.group_order.Nodup ∧ (∀ g, g ∈ p.group_order ↔ g ∈ p.keys) := by
  obtain ⟨gi, stop, hg, hs, hp⟩ := runPipe_ok_elim h
  subst hp
  refine ⟨nodup_firstSeenAux, fun g => ?_⟩
  show g ∈ orderOf (workTable src) gi ↔ _
  rw [orderOf, firstSeen, mem_firstSeenAux]
  simp only [List.not_mem_nil, not_false_iff, and_true]
  rfl

/-- Witness for C4 (amended) at a concrete reappearing-key table. -/
theorem group_order_nodup_complete_witness :
    (pipeOf tReappear2).group_order.Nodup ∧
      ("a" ∈ (pipeOf tReappear2).group_order ↔ "a" ∈ (pipeOf tReappear2).keys) :=
  ⟨(group_order_nodup_complete tReappear2 (pipeOf tReappear2) rfl).1,
   (group_order_nodup_complete tReappear2 (pipeOf tReappear2) rfl).2 "a"⟩


/-- Claim C5: when the material role is unresolved no truncation occurs;
when it resolves, the kept groups are exactly the prefix of the group order
strictly before the first group whose first row's material, upper-cased,
begins with `"FCT"` (all groups when no such group exists).  Because a
missing material makes the scan raise (claim C1), the statement is over
successful runs. -/
theorem kept_groups_truncation (src : Table) (p : Pipe)
    (h : runPipe src = Except.ok p) :
    (find_col (workTable src).cols ["material"] = none →
      p.kept_groups = p.group_order) ∧
    (∀ gi mi, groupIdx (workTable src) = some gi →
      find_col (workTable src).cols ["material"] = some mi →
      p.kept_groups = p.group_order.takeWhile
        (fun g => ! isStopGroup (workTable src) gi mi g)) := by
  obtain ⟨gi, stop, hg, hs, hp⟩ := runPipe_ok_elim h
  subst hp
  constructor
  · intro hm
    rw [stopIdx, hm] at hs
    dsimp only at hs
    have hstop : none = stop := by injection hs
    subst hstop
    show keptOf (workTable src) gi none = orderOf (workTable src) gi
    rw [keptOf]
  · intro gi2 mi hg2 hm
    rw [hg] at hg2
    have hgg : gi = gi2 := by injection hg2
    subst hgg
    rw [stopIdx, hm] at hs
    dsimp only at hs
    have hspec := stopScan_ok_spec (workTable src) gi mi
      (orderOf (workTable src) gi) 0 stop hs
    cases stop with
    | none =>
      show keptOf (workTable src) gi none
        = (orderOf (workTable src) gi).takeWhile _
      rw [keptOf]
      exact hspec.symm
    | some j =>
      obtain ⟨-, htake⟩ := hspec
      rw [Nat.sub_zero] at htake
      show keptOf (workTable src) gi (some j)
        = (orderOf (workTable src) gi).takeWhile _
      rw [keptOf]
      exact htake

/-- Witness for C5: three groups `A`, `B`, `C`, the third with first-row
material `"fctsm-26x"`; kept groups are exactly `[A, B]`. -/
theorem kept_groups_truncation_witness :
    (pipeOf tThreeGroups).kept_groups = ["A", "B"] ∧
    (pipeOf tThreeGroups).kept_groups
      = (pipeOf tThreeGroups).group_order.takeWhile
          (fun g => ! isStopGroup (workTable tThreeGroups) 0 1 g) :=
  ⟨((kept_groups_truncation tThreeGroups (pipeOf tThreeGroups) rfl).2
      0 1 rfl rfl).trans rfl,
   (kept_groups_truncation tThreeGroups (pipeOf tThreeGroups) rfl).2
      0 1 rfl rfl⟩

/-- Claim C7: for each item index k between 1 and max_items, the output
contains a `PerformData{k}.length` row and a `PerformData{k}.quantity` row
whose per-group values are the k-th row's cell at the resolved column,
defaulting to `"0"` whenever the group has fewer than k rows, the column is
unresolved, or the cell is empty or missing; and a `PerformData{k}.barcode`
row whose values are the item-identifier cell, defaulting to the empty
string (never `"0"`) under the same fallback conditions. -/
theorem performdata_row_semantics (kept : List String)
    (grows : String → List (List Cell)) (cm cl cq ci : Option Nat) (k : Nat)
    (h1 : 1 ≤ k) (h2 : k ≤ maxItemsOf kept grows) :
    (performLabel k "length" ::
        kept.map (fun g => specItemVal (grows g) (k - 1) cl "0"))
      ∈ buildRawRows kept grows cm cl cq ci ∧
    (performLabel k "quantity" ::
        kept.map (fun g => specItemVal (grows g) (k - 1) cq "0"))
      ∈ buildRawRows kept grows cm cl cq ci ∧
    (performLabel k "barcode" ::
        kept.map (fun g => specItemVal (grows g) (k - 1) ci ""))
      ∈ buildRawRows kept grows cm cl cq ci := by
  have hk : k - 1 ∈ List.range (maxItemsOf kept grows) :=
    List.mem_range.2 (by omega)
  have hkk : (k - 1) + 1 = k := by omega
  have hfl : (fun g => itemEntry (grows g) (k - 1) cl)
      = (fun g => specItemVal (grows g) (k - 1) cl "0") :=
    funext fun g => itemEntry_eq_spec _ _ _
  have hfq : (fun g => itemEntry (grows g) (k - 1) cq)
      = (fun g => specItemVal (grows g) (k - 1) cq "0") :=
    funext fun g => itemEntry_eq_spec _ _ _
  have hfb : (fun g => barcodeEntry (grows g) (k - 1) ci)
      = (fun g => specItemVal (grows g) (k - 1) ci "") :=
    funext fun g => barcodeEntry_eq_spec _ _ _
  refine ⟨?_, ?_, ?_⟩
  · rw [buildRawRows]
    apply List.mem_append_left
    apply List.mem_append_right
    apply List.mem_flatMap.2
    refine ⟨k - 1, hk, ?_⟩
    rw [performQuad, hkk, hfl]
    exact List.mem_cons_self _ _
  · rw [buildRawRows]
    apply List.mem_append_left
    apply List.mem_append_right
    apply List.mem_flatMap.2
    refine ⟨k - 1, hk, ?_⟩
    rw [performQuad, hkk, hfq]
    exact List.mem_cons_of_mem _ (List.mem_cons_of_mem _
      (List.mem_cons_of_mem _ (List.mem_cons_self _ _)))
  · rw [buildRawRows]
    apply List.mem_append_right
    apply List.mem_map.2
    refine ⟨k - 1, hk, ?_⟩
    rw [barcodeRow, hkk, hfb]

/-- Witness for C7 at a concrete one-group table slice: the value present
and non-empty for `.length`, missing for `.quantity` (default `"0"`), and
the column unresolved for `.barcode` (default `""`). -/
theorem performdata_row_semantics_witness :
    (performLabel 1 "length" ::
        (["g"] : List String).map (fun _ =>
          specItemVal [[some "7", none]] 0 (some 0) "0"))
      ∈ buildRawRows ["g"] (fun _ => [[some "7", none]])
          none (some 0) (some 1) none ∧
    (performLabel 1 "quantity" ::
        (["g"] : List String).map (fun _ =>
          specItemVal [[some "7", none]] 0 (some 1) "0"))
      ∈ buildRawRows ["g"] (fun _ => [[some "7", none]])
          none (some 0) (some 1) none ∧
    (performLabel 1 "barcode" ::
        (["g"] : List String).map (fun _ =>
          specItemVal [[some "7", none]] 0 none ""))
      ∈ buildRawRows ["g"] (fun _ => [[some "7", none]])
          none (some 0) (some 1) none :=
  performdata_row_semantics ["g"] (fun _ => [[some "7", none]])
    none (some 0) (some 1) none 1 (by decide) (by decide)

/-- Counterexample to C2 as stated: a table with a group column and no data
rows yields `num_pages = 0`, yet every one of the 13 output rows has two
cells — one non-label column, not zero — because the header literals
`["List separator=", "Decimal symbol=."]` force the frame two columns wide. -/
theorem zero_pages_extra_column :
    (runPipe tNoRows).map Pipe.num_pages = Except.ok 0 ∧
    (runPipe tNoRows).map (fun p => p.out.map List.length)
      = Except.ok (List.replicate 13 2) ∧
    (2 : Nat) ≠ 0 + 1 :=
  ⟨rfl, rfl, by decide⟩

/-- Claim C2 (amended): every output row has exactly `max num_pages 1`
non-label columns — equal to `num_pages` whenever at least one group is
kept; in the `num_pages = 0` case the header literals leave one value
column, and shortfalls are right-padded with empty strings. -/
theorem output_row_width (src : Table) (p : Pipe)
    (h : runPipe src = Except.ok p) :
    ∀ r ∈ p.out, r.length = 1 + max p.num_pages 1 := by
  obtain ⟨gi, stop, hg, hs, hp⟩ := runPipe_ok_elim h
  subst hp
  intro r hr
  have hr2 : r ∈ mkDataFrame (buildRawRows (keptOf (workTable src) gi stop)
      (growsOf (workTable src) gi)
      (find_col (workTable src).cols ["material"])
      (find_col (workTable src).cols ["length"])
      (find_col (workTable src).cols ["qty"])
      (find_col (workTable src).cols ["itemid", "item_id", "item id"])) := hr
  rw [mkDataFrame_row_length hr2, tableWidth_buildRawRows]
  rfl

/-- Witness for C2 (amended): with two kept groups, the padded header row
has width three — one label plus `max num_pages 1 = 2` value columns. -/
theorem output_row_width_witness :
    (["List separator=", "Decimal symbol=.", ""] : List String).length
      = 1 + max (pipeOf tTwoGroups).num_pages 1 :=
  output_row_width tTwoGroups (pipeOf tTwoGroups) rfl
    ["List separator=", "Decimal symbol=.", ""] (by decide)

/-- Counterexample to C3 as stated: with no group-like column but a first
row whose material starts with `"FCT"`, the single synthetic group is
itself truncated by the stop rule, so `num_pages = 0`, not 1. -/
theorem no_group_fct_zero_pages :
    (runPipe tFctOnly).map Pipe.num_pages = Except.ok 0 ∧
    (Except.ok 0 : Except String Nat) ≠ Except.ok 1 :=
  ⟨rfl, by simp⟩

/-- Claim C3 (amended): for a well-formed non-empty table with no
group-like column, the transformer materializes the synthetic constant
group `"1"` over all rows, so exactly one group is formed; `num_pages ≤ 1`,
with equality whenever the material role is unresolved (the FCT stop rule
or an empty table are the only ways to reach 0). -/
theorem synthetic_group_single_page (src : Table) (p : Pipe)
    (hwf : src.WF) (hne : src.rows ≠ [])
    (hg : "group" ∉ src.cols.map normName)
    (h : runPipe src = Except.ok p) :
    p.group_order = ["1"] ∧ p.num_pages ≤ 1 ∧
    (find_col (workTable src).cols ["material"] = none → p.num_pages = 1) := by
  obtain ⟨gi, stop, hgi, hs, hp⟩ := runPipe_ok_elim h
  subst hp
  have hkeys := keysOf_workTable_no_group hwf hg hgi
  have horder : orderOf (workTable src) gi = ["1"] := by
    rw [orderOf, hkeys]
    apply firstSeen_all_one
    · simpa using hne
    · intro x hx
      obtain ⟨r0, -, hx2⟩ := List.mem_map.1 hx
      exact hx2.symm
  refine ⟨horder, ?_, ?_⟩
  · show (keptOf (workTable src) gi stop).length ≤ 1
    cases stop with
    | some i =>
      rw [keptOf, horder]
      simp [List.length_take]
    | none =>
      rw [keptOf, horder]
      simp
  · intro hm
    rw [stopIdx, hm] at hs
    dsimp only at hs
    have hstop : none = stop := by injection hs
    subst hstop
    show (keptOf (workTable src) gi none).length = 1
    rw [keptOf, horder]
    rfl

/-- Witness for C3 (amended): one row, no group column, no material
column — exactly one page. -/
theorem synthetic_group_single_page_witness :
    (pipeOf tNoGroup).group_order = ["1"] ∧ (pipeOf tNoGroup).num_pages = 1 :=
  ⟨(synthetic_group_single_page tNoGroup (pipeOf tNoGroup)
      (by intro r hr; simp [tNoGroup] at hr; subst hr; rfl)
      (by simp [tNoGroup])
      (by decide) rfl).1,
   (synthetic_group_single_page tNoGroup (pipeOf tNoGroup)
      (by intro r hr; simp [tNoGroup] at hr; subst hr; rfl)
      (by simp [tNoGroup])
      (by decide) rfl).2.2 rfl⟩



/-! ## Helper lemmas: heap reads and writes -/

theorem Heap.read_alloc_new (h : Heap) (t : Table) :
    (h.alloc t).1.read (h.alloc t).2 = some t := by
  rw [Heap.alloc, Heap.read]
  exact List.getElem?_concat_length _ _

theorem Heap.read_alloc_old (h : Heap) (t : Table) {r : Nat}
    (hlt : r < h.tabs.length) : (h.alloc t).1.read r = h.read r := by
  rw [Heap.alloc, Heap.read, Heap.read]
  simp [List.getElem?_append, hlt]

theorem Heap.read_write_self (h : Heap) {r : Nat} (hlt : r < h.tabs.length)
    (t : Table) : (h.write r t).read r = some t := by
  rw [Heap.write, Heap.read]
  exact List.getElem?_set_self hlt

theorem Heap.read_write_ne (h : Heap) {r r2 : Nat} (hne : r2 ≠ r)
    (t : Table) : (h.write r2 t).read r = h.read r := by
  rw [Heap.write, Heap.read, Heap.read]
  exact List.getElem?_set_ne hne

theorem Heap.alloc_len (h : Heap) (t : Table) :
    (h.alloc t).1.tabs.length = h.tabs.length + 1 := by
  simp [Heap.alloc]

theorem Heap.write_len (h : Heap) (r : Nat) (t : Table) :
    (h.write r t).tabs.length = h.tabs.length := by
  simp [Heap.write]

theorem Heap.read_lt {h : Heap} {r : Nat} {t : Table}
    (hr : h.read r = some t) : r < h.tabs.length := by
  by_contra hge
  rw [Heap.read, List.getElem?_eq_none (Nat.le_of_not_lt hge)] at hr
  exact absurd hr (by simp)

/-- Claim C9: the transformation never writes the caller's table object —
the copy of line 11 and the fresh `applymap` result receive every mutation
— and the value it returns is the pure transformation of the input, so
after the call the caller's table reads exactly as before. -/
theorem transform_preserves_caller_table (h : Heap) (r : Nat) (src : Table)
    (hr : h.read r = some src) :
    (transformOnHeap h r).1.read r = some src ∧
    (transformOnHeap h r).2 = transform_batch_to_profile src := by
  have hlt : r < h.tabs.length := Heap.read_lt hr
  rw [transformOnHeap, hr]
  dsimp only
  have e1 : (h.alloc src).1.read (h.alloc src).2 = some src :=
    Heap.read_alloc_new h src
  rw [e1]
  dsimp only [Option.getD_some]
  have hltA : (h.alloc src).2 < (h.alloc src).1.tabs.length := by
    rw [Heap.alloc_len]
    show h.tabs.length < h.tabs.length + 1
    omega
  have e2 : ((h.alloc src).1.write (h.alloc src).2 (normCols src)).read
      (h.alloc src).2 = some (normCols src) :=
    Heap.read_write_self _ hltA _
  rw [e2]
  dsimp only [Option.getD_some]
  have e3 : (((h.alloc src).1.write (h.alloc src).2 (normCols src)).alloc
        (trimCells (normCols src))).1.read
      (((h.alloc src).1.write (h.alloc src).2 (normCols src)).alloc
        (trimCells (normCols src))).2 = some (trimCells (normCols src)) :=
    Heap.read_alloc_new _ _
  rw [e3]
  dsimp only [Option.getD_some]
  have hltB : (((h.alloc src).1.write (h.alloc src).2 (normCols src)).alloc
        (trimCells (normCols src))).2
      < (((h.alloc src).1.write (h.alloc src).2 (normCols src)).alloc
        (trimCells (normCols src))).1.tabs.length := by
    show ((h.alloc src).1.write (h.alloc src).2 (normCols src)).tabs.length
      < (((h.alloc src).1.write (h.alloc src).2 (normCols src)).alloc
        (trimCells (normCols src))).1.tabs.length
    rw [Heap.alloc_len]
    omega
  have e4 : ((((h.alloc src).1.write (h.alloc src).2 (normCols src)).alloc
        (trimCells (normCols src))).1.write
      (((h.alloc src).1.write (h.alloc src).2 (normCols src)).alloc
        (trimCells (normCols src))).2
      (withGroupCol (trimCells (normCols src)))).read
      (((h.alloc src).1.write (h.alloc src).2 (normCols src)).alloc
        (trimCells (normCols src))).2
      = some (withGroupCol (trimCells (normCols src))) :=
    Heap.read_write_self _ hltB _
  rw [e4]
  dsimp only [Option.getD_some]
  constructor
  · have hneB : (((h.alloc src).1.write (h.alloc src).2 (normCols src)).alloc
        (trimCells (normCols src))).2 ≠ r := by
      show ((h.alloc src).1.write (h.alloc src).2 (normCols src)).tabs.length ≠ r
      rw [Heap.write_len, Heap.alloc_len]
      omega
    rw [Heap.read_write_ne _ hneB]
    have hltB2 : r < (((h.alloc src).1.write (h.alloc src).2
        (normCols src))).tabs.length := by
      rw [Heap.write_len, Heap.alloc_len]
      omega
    rw [Heap.read_alloc_old _ _ hltB2]
    have hneA : (h.alloc src).2 ≠ r := by
      show h.tabs.length ≠ r
      omega
    rw [Heap.read_write_ne _ hneA]
    rw [Heap.read_alloc_old _ _ hlt]
    exact hr
  · rfl

/-- Witness for C9 at a one-object heap. -/
theorem transform_preserves_caller_table_witness :
    (transformOnHeap ⟨[tFrame]⟩ 0).1.read 0 = some tFrame ∧
    (transformOnHeap ⟨[tFrame]⟩ 0).2 = transform_batch_to_profile tFrame :=
  transform_preserves_caller_table ⟨[tFrame]⟩ 0 tFrame rfl


end BatchProfile
